import Mathlib

/-!
Verification development for the AliceEphemera VS Code extension
(create-instance wizard, polling loops, configuration refresh,
instance-state service).  The TypeScript source is shallowly embedded:
JavaScript numbers that can be NaN are modelled as `Option ℚ` (none = NaN),
`parseInt` / `parseFloat` / `Number` are modelled on character lists for the
decimal fragment the program uses (no exponents or hex, which never occur
here), and the asynchronous wizard is modelled as an explicit state machine
driven by accept / hide events, with the promise's resolve-once behaviour
made explicit.
-/

namespace Alice

/-! ## JS string and number primitives -/
/-- Decimal digit test on a character (ASCII 48..57). -/
def isDigitChar (c : Char) : Bool := decide (48 ≤ c.toNat ∧ c.toNat ≤ 57)

/-- Whitespace test used by trim / parseInt / parseFloat (space, tab,
newline, carriage return, vertical tab, form feed). -/
def isWsChar (c : Char) : Bool :=
  decide (c.toNat = 32 ∨ c.toNat = 9 ∨ c.toNat = 10 ∨ c.toNat = 13 ∨
    c.toNat = 11 ∨ c.toNat = 12)

/-- Numeric value of a digit character. -/
def digitVal (c : Char) : ℕ := c.toNat - 48

/-- Digit character of a value below ten. -/
def digitChar (n : ℕ) : Char := Char.ofNat (48 + n)

/-- Value of a list of digit characters read in base 10. -/
def digitsToNat (ds : List Char) : ℕ :=
  ds.foldl (fun a c => 10 * a + digitVal c) 0

/-- Fuel-driven digit expansion (structural recursion, so that the kernel
can evaluate it); `fuel > n` always suffices. -/
def natDecDigitsAux : ℕ → ℕ → List Char
  | 0, _ => []
  | fuel + 1, n =>
    if n < 10 then [digitChar n]
    else natDecDigitsAux fuel (n / 10) ++ [digitChar (n % 10)]

/-- Canonical decimal digit list of a natural number (what
`Number.prototype.toString` produces for naturals). -/
def natDecDigits (n : ℕ) : List Char := natDecDigitsAux (n + 1) n

/-- Canonical decimal string of a natural number. -/
def natDecString (n : ℕ) : String := String.mk (natDecDigits n)

/-- Canonical decimal string of an integer (JS `toString` on an integral
number). -/
def intRepr (i : ℤ) : String :=
  if i < 0 then "-" ++ natDecString i.natAbs else natDecString i.toNat

/-- JS `String.prototype.trim` on a character list. -/
def trimChars (l : List Char) : List Char :=
  ((l.dropWhile isWsChar).reverse.dropWhile isWsChar).reverse

/-- Read an optional sign character; returns (isNegative, rest). -/
def readSign (l : List Char) : Bool × List Char :=
  match l with
  | [] => (false, [])
  | c :: r => if c = '-' then (true, r) else if c = '+' then (false, r) else (false, l)

/-- JS `parseInt(s, 10)`: skip whitespace, optional sign, longest digit
prefix; NaN (`none`) when no digit is found. -/
def listParseInt (l : List Char) : Option ℤ :=
  let l1 := l.dropWhile isWsChar
  let sg := readSign l1
  let ds := sg.2.takeWhile isDigitChar
  if ds.isEmpty then none
  else some (if sg.1 then -(digitsToNat ds : ℤ) else (digitsToNat ds : ℤ))

/-- An exact (finite) decimal value `num / 10 ^ exp`, the value space in
which this program's JS numbers live (every number it parses, stores or
compares is a finite decimal, and it never divides or multiplies them);
kept unnormalised so that every comparison is integer arithmetic.  Value
equality, the meaning of JS `===` on numbers, is `decValEq`. -/
structure JsDec where
  num : ℤ
  exp : ℕ
deriving DecidableEq, Repr

/-- Value equality of exact decimals: `a.num / 10 ^ a.exp = b.num / 10 ^ b.exp`
cross-multiplied. -/
def decValEq (a b : JsDec) : Bool :=
  decide (a.num * 10 ^ b.exp = b.num * 10 ^ a.exp)

/-- Value equality of an integer against an exact decimal. -/
def decEqInt (t : ℤ) (d : JsDec) : Bool :=
  decide (t * 10 ^ d.exp = d.num)

/-- JS `parseFloat(s)` restricted to the decimal fragment without exponent
(the only inputs this program feeds it): whitespace, optional sign, digits,
optional point and fraction digits; NaN (`none`) when no digit is found.
The value `ip.fp` is represented exactly as `(ip * 10 ^ k + fp) / 10 ^ k`. -/
def listParseFloat (l : List Char) : Option JsDec :=
  let l1 := l.dropWhile isWsChar
  let sg := readSign l1
  let ip := sg.2.takeWhile isDigitChar
  let rest := sg.2.dropWhile isDigitChar
  let core : Option JsDec :=
    match rest with
    | '.' :: r2 =>
      let fp := r2.takeWhile isDigitChar
      if ip.isEmpty && fp.isEmpty then none
      else some ⟨(digitsToNat ip : ℤ) * 10 ^ fp.length + (digitsToNat fp : ℤ), fp.length⟩
    | _ => if ip.isEmpty then none else some ⟨(digitsToNat ip : ℤ), 0⟩
  core.map (fun d => if sg.1 then ⟨-d.num, d.exp⟩ else d)

/-- JS `Number(s)` restricted to decimal literals: the whole (trimmed)
string must be a signed decimal literal; the empty or all-whitespace string
is 0; anything else is NaN (`none`). -/
def listNumber (l : List Char) : Option JsDec :=
  let t := trimChars l
  if t.isEmpty then some ⟨0, 0⟩
  else
    let sg := readSign t
    let ip := sg.2.takeWhile isDigitChar
    let rest := sg.2.dropWhile isDigitChar
    let core : Option JsDec :=
      match rest with
      | [] => if ip.isEmpty then none else some ⟨(digitsToNat ip : ℤ), 0⟩
      | '.' :: r2 =>
        let fp := r2.takeWhile isDigitChar
        let r3 := r2.dropWhile isDigitChar
        if r3.isEmpty && !(ip.isEmpty && fp.isEmpty) then
          some ⟨(digitsToNat ip : ℤ) * 10 ^ fp.length + (digitsToNat fp : ℤ), fp.length⟩
        else none
      | _ => none
    core.map (fun d => if sg.1 then ⟨-d.num, d.exp⟩ else d)

/-- JS `Number(s)` on a string. -/
def jsNumber (s : String) : Option JsDec := listNumber s.data

/-! ## Wizard data model (instanceMultiStep.ts)

A JS number that may be NaN is `Option ℚ` with `none` playing NaN: NaN is
never equal to anything (`jsEqId`) and is falsy (`jsNumTruthy`). -/
/-- JS number possibly NaN. -/
abbrev JsNum := Option JsDec

/-- JS strict equality of a plain number against a possibly-NaN number
(`p.id === plan.id`): NaN compares unequal to everything. -/
def jsEqId (pid : ℤ) (x : JsNum) : Bool :=
  match x with
  | some d => decEqInt pid d
  | none => false

/-- JS truthiness of a number: NaN and 0 are falsy. -/
def jsNumTruthy (x : JsNum) : Bool :=
  match x with
  | some d => decide (d.num ≠ 0)
  | none => false

/-- Decimal rendering of a possibly-NaN number, used only inside messages
and the restore of a previously entered duration (presentation only, never
branched on). -/
def jsNumRepr (x : JsNum) : String :=
  match x with
  | none => "NaN"
  | some d =>
    if d.exp = 0 then intRepr d.num
    else intRepr d.num ++ "e-" ++ natDecString d.exp

/-- The `Plan` object the wizard mutates: `{id, os, time, sshKey, bootScript}`,
numeric fields start at the NaN sentinel, `bootScript` at the empty string. -/
structure WizPlan where
  id : JsNum
  os : JsNum
  time : JsNum
  sshKey : JsNum
  bootScript : String
deriving DecidableEq, Repr

/-- Initial sentinel plan (`{id: NaN, os: NaN, time: NaN, sshKey: NaN, bootScript: ""}`). -/
def sentinelPlan : WizPlan := ⟨none, none, none, none, ""⟩

/-- Status of a `CreateInstanceResult`. -/
inductive RStatus
  | completed
  | cancelled
  | error
deriving DecidableEq, Repr

/-- Result type of the create-instance wizard. -/
structure CreateInstanceResult where
  status : RStatus
  plan : Option WizPlan
  message : Option String
deriving DecidableEq, Repr

/-- Steps of the create-instance state machine (the enum
`CreateInstanceStep`; `Done` and `Cancelled` are declared in the source but
never assigned to `currentStep`). -/
inductive Step
  | SelectPlan
  | SelectOS
  | EnterTime
  | SelectSSHKey
  | SelectBootScript
  | Done
  | Cancelled
deriving DecidableEq, Repr

/-- Numeric value of a step (the enum value). -/
def Step.toNat : Step → ℕ
  | .SelectPlan => 0
  | .SelectOS => 1
  | .EnterTime => 2
  | .SelectSSHKey => 3
  | .SelectBootScript => 4
  | .Done => 5
  | .Cancelled => 6

/-- Predecessor of a step (the `currentStep--` of the back button). -/
def Step.back : Step → Step
  | .SelectPlan => .SelectPlan
  | .SelectOS => .SelectPlan
  | .EnterTime => .SelectOS
  | .SelectSSHKey => .EnterTime
  | .SelectBootScript => .SelectSSHKey
  | .Done => .SelectBootScript
  | .Cancelled => .Done

/-- A Quick Pick item as the accept handler can observe it: either the
distinguished `backItem` object (compared by object identity in the source)
or an option with a label and an optional description.  The `detail` field
is presentation-only and never branched on, so it is elided. -/
inductive Item
  | back
  | opt (label : String) (description : Option String)
deriving DecidableEq, Repr

/-- Label of an item (`backItem.label` is the arrow label). -/
def itemLabel : Item → String
  | .back => "$(arrow-left) 返回上一级"
  | .opt l _ => l

/-- Description of an optional selection (`selection?.description`);
`backItem` has none. -/
def descrOf : Option Item → Option String
  | some (.opt _ d) => d
  | _ => none

/-- OS catalog entry (`{id, name}`). -/
structure OsCfg where
  id : ℤ
  name : String
deriving DecidableEq, Repr

/-- Plan catalog entry after the refresh resolved its OS list. -/
structure PlanCfg where
  id : ℤ
  name : String
  os : List OsCfg
deriving DecidableEq, Repr

/-- SSH key catalog entry. -/
structure SshKeyCfg where
  id : ℤ
  name : String
  created_at : String
deriving DecidableEq, Repr

/-- The snapshot of `CONFIG` the wizard reads: permission flag, plan list,
`evoPermissions.max_time`, SSH key list, and the boot-script items produced
by the external `getScriptList` (label, description pairs; empty when the
configured path is missing). -/
structure Config where
  hasEvoPermission : Bool
  planList : List PlanCfg
  maxTime : ℤ
  sshKeyList : List SshKeyCfg
  scriptItems : List (String × Option String)
deriving DecidableEq, Repr

/-- Wizard runtime state: the captured mutable variables (`currentStep`,
`plan`, `errorMessage`, `isCompleted`), the Quick Pick view (`value`,
`items`), the promise (`resolved`, set at most once), disposal, and the
list of steps rendered so far. -/
structure WState where
  currentStep : Step
  plan : WizPlan
  errorMessage : Option String
  value : String
  items : List Item
  isCompleted : Bool
  resolved : Option CreateInstanceResult
  disposed : Bool
  renders : List Step
deriving DecidableEq, Repr

/-- Resolve the wrapping promise: a JS promise keeps only the first
resolution. -/
def tryResolve (s : WState) (r : CreateInstanceResult) : WState :=
  if s.resolved.isSome then s else { s with resolved := some r }

/-- An error resolution value. -/
def errResult (m : String) : CreateInstanceResult :=
  ⟨RStatus.error, none, some m⟩

/-- The `onDidHide` handler followed by `dispose()`: resolve `cancelled`
unless the run completed normally, then release the Quick Pick (after which
no further events are delivered). -/
def doHide (s : WState) : WState :=
  let s1 := if s.isCompleted then s else tryResolve s ⟨RStatus.cancelled, none, none⟩
  { s1 with disposed := true }

/-- Resolve with a result and hide (the error exits inside `updateView`). -/
def resolveHide (s : WState) (r : CreateInstanceResult) : WState :=
  doHide (tryResolve s r)

/-- Mark the current step as rendered (`quickPick.show()`). -/
def showView (s : WState) : WState :=
  { s with renders := s.renders ++ [s.currentStep] }

/-- The core `updateView` function: clear the error, the input value and the
items, then populate title/placeholder/items for the current step.  On
`SelectOS` a missing plan or an empty OS list resolves the run with an
error and hides the picker before showing anything. -/
def updateView (cfg : Config) (s : WState) : WState :=
  let s0 : WState := { s with errorMessage := none, value := "", items := [] }
  match s.currentStep with
  | .SelectPlan =>
      showView { s0 with
        items := cfg.planList.map (fun p => Item.opt p.name (some (intRepr p.id))) }
  | .SelectOS =>
      match cfg.planList.find? (fun p => jsEqId p.id s.plan.id) with
      | none =>
          resolveHide s0 (errResult ("未能找到 Plan ID 为 " ++ jsNumRepr s.plan.id ++ " 的 OS 列表。"))
      | some pc =>
          if pc.os.isEmpty then
            resolveHide s0 (errResult ("Plan ID " ++ jsNumRepr s.plan.id ++ " 没有可用的操作系统。"))
          else
            showView { s0 with
              items := Item.back :: pc.os.map (fun o => Item.opt o.name (some (intRepr o.id))) }
  | .EnterTime =>
      showView { s0 with
        items := [Item.back],
        value := if jsNumTruthy s.plan.time then jsNumRepr s.plan.time else "" }
  | .SelectSSHKey =>
      showView { s0 with
        items := Item.back :: Item.opt "不使用 SSH Key" none ::
          cfg.sshKeyList.map (fun k => Item.opt k.name (some (intRepr k.id))) }
  | .SelectBootScript =>
      showView { s0 with
        items := Item.back :: Item.opt "不使用启动脚本" none ::
          cfg.scriptItems.map (fun it => Item.opt it.1 it.2) }
  | .Done => showView s0
  | .Cancelled => showView s0

/-- Error message of the `isNaN(timeNum) || timeNum <= 0` branch. -/
def timeErrNotPositive : String := "请输入有效的正整数时间"

/-- Error message of the `timeNum !== parseFloat(timeValue)` branch. -/
def timeErrNotInteger : String := "请输入整数，不支持小数"

/-- Error message of the `timeNum > max_time` branch. -/
def timeErrOverMax (maxT : ℤ) : String := "时长不能超过 " ++ intRepr maxT ++ " 小时"

/-- Validation of the duration input (the `EnterTime` case of
`onDidAccept`): trim, `parseInt`, reject NaN or non-positive, reject when
`parseInt` and `parseFloat` disagree (a fractional part), reject above the
configured maximum; otherwise yield the parsed integer. -/
def validateTime (value : String) (maxT : ℤ) : Except String ℤ :=
  let tv := trimChars value.data
  match listParseInt tv with
  | none => Except.error timeErrNotPositive
  | some t =>
    if t ≤ 0 then Except.error timeErrNotPositive
    else
      match listParseFloat tv with
      | none => Except.error timeErrNotInteger
      | some q =>
        if decEqInt t q = false then Except.error timeErrNotInteger
        else if t > maxT then Except.error (timeErrOverMax maxT)
        else Except.ok t

/-- The `Number(selection.description) || NaN` of the SSH-key step: missing
description, non-numeric description, and 0 all collapse to NaN. -/
def sshKeyVal : Item → JsNum
  | .back => none
  | .opt _ d =>
    match d with
    | none => none
    | some ds =>
      match jsNumber ds with
      | none => none
      | some d => if d.num = 0 then none else some d

/-- The `onDidAccept` handler: back button first (object identity against
`backItem`), then the per-step logic.  `value` is the text in the input box
at the moment of acceptance. -/
def onDidAccept (cfg : Config) (s : WState) (sel : Option Item) (value : String) : WState :=
  if sel = some Item.back then
    if s.currentStep.toNat > 0 then
      updateView cfg { s with currentStep := s.currentStep.back }
    else s
  else
    match s.currentStep with
    | .SelectPlan =>
      match descrOf sel with
      | some d =>
        if d ≠ "" then
          updateView cfg { s with plan := { s.plan with id := jsNumber d }, currentStep := .SelectOS }
        else s
      | none => s
    | .SelectOS =>
      match descrOf sel with
      | some d =>
        if d ≠ "" then
          updateView cfg { s with plan := { s.plan with os := jsNumber d }, currentStep := .EnterTime }
        else s
      | none => s
    | .EnterTime =>
      match validateTime value cfg.maxTime with
      | Except.ok t =>
        updateView cfg { s with plan := { s.plan with time := some ⟨t, 0⟩ }, currentStep := .SelectSSHKey }
      | Except.error m =>
        updateView cfg { s with errorMessage := some m }
    | .SelectSSHKey =>
      match sel with
      | some it =>
        updateView cfg { s with plan := { s.plan with sshKey := sshKeyVal it }, currentStep := .SelectBootScript }
      | none => s
    | .SelectBootScript =>
      match sel with
      | some it =>
        let p := { s.plan with
          bootScript := if itemLabel it = "不使用启动脚本" then "" else itemLabel it }
        doHide (tryResolve { s with plan := p, isCompleted := true }
          ⟨RStatus.completed, some p, none⟩)
      | none => s
    | .Done => s
    | .Cancelled => s

/-- One presentation event: an acceptance (with the selected item and the
text in the input box) or a hide (escape / external dismissal). -/
inductive WEvent
  | accept (sel : Option Item) (value : String)
  | hide
deriving DecidableEq, Repr

/-- Process one event; a disposed picker delivers no events. -/
def stepEvent (cfg : Config) (s : WState) : WEvent → WState
  | .accept sel v => if s.disposed then s else onDidAccept cfg s sel v
  | .hide => if s.disposed then s else doHide s

/-- Process a list of events in order. -/
def runEvents (cfg : Config) (s : WState) : List WEvent → WState
  | [] => s
  | e :: es => runEvents cfg (stepEvent cfg s e) es

/-- Initial wizard state, seeded with the optional default plan. -/
def initWState (dp : Option WizPlan) : WState :=
  { currentStep := .SelectPlan
    plan := dp.getD sentinelPlan
    errorMessage := none
    value := ""
    items := []
    isCompleted := false
    resolved := none
    disposed := false
    renders := [] }

/-- Entry of `createInstanceMultiStep`: the EVO-permission guard and the
plan-catalog guard return an error result before the Quick Pick (and hence
any step) is created; otherwise the initial view is rendered and the state
machine starts.  (The accompanying modal error dialog and its optional
re-check action are external UI collaborators.) -/
def createInstanceMultiStep (cfg : Config) (dp : Option WizPlan) :
    Except CreateInstanceResult WState :=
  if cfg.hasEvoPermission = false then
    Except.error ⟨RStatus.error, none, some "没有 EVO 权限"⟩
  else if cfg.planList.isEmpty then
    Except.error ⟨RStatus.error, none, some "没有可用的 Plan"⟩
  else
    Except.ok (updateView cfg (initWState dp))

/-! ## Forward transitions of the wizard

A successful forward transition writes exactly one field of the request.
`stepWrites` extracts the write (if any) an event performs, and `applyFW`
replays a write; the wizard's committed plan is the fold of the collected
writes, which is exactly "the request built by only the forward
transitions, using the last value entered per step". -/
/-- One forward write to the request under construction. -/
inductive FWrite
  | wid (v : JsNum)
  | wos (v : JsNum)
  | wtime (v : JsNum)
  | wssh (v : JsNum)
  | wboot (v : String)
deriving DecidableEq, Repr

/-- Replay one forward write. -/
def applyFW (p : WizPlan) : FWrite → WizPlan
  | .wid v => { p with id := v }
  | .wos v => { p with os := v }
  | .wtime v => { p with time := v }
  | .wssh v => { p with sshKey := v }
  | .wboot v => { p with bootScript := v }

/-- The write (at most one) performed by one event, under the same guards
as `onDidAccept`. -/
def stepWrites (cfg : Config) (s : WState) : WEvent → List FWrite
  | .hide => []
  | .accept sel v =>
    if s.disposed then [] else
    if sel = some Item.back then [] else
    match s.currentStep with
    | .SelectPlan =>
      match descrOf sel with
      | some d => if d ≠ "" then [FWrite.wid (jsNumber d)] else []
      | none => []
    | .SelectOS =>
      match descrOf sel with
      | some d => if d ≠ "" then [FWrite.wos (jsNumber d)] else []
      | none => []
    | .EnterTime =>
      match validateTime v cfg.maxTime with
      | Except.ok t => [FWrite.wtime (some ⟨t, 0⟩)]
      | Except.error _ => []
    | .SelectSSHKey =>
      match sel with
      | some it => [FWrite.wssh (sshKeyVal it)]
      | none => []
    | .SelectBootScript =>
      match sel with
      | some it => [FWrite.wboot (if itemLabel it = "不使用启动脚本" then "" else itemLabel it)]
      | none => []
    | .Done => []
    | .Cancelled => []

/-- Writes collected along a run. -/
def collectWrites (cfg : Config) (s : WState) : List WEvent → List FWrite
  | [] => []
  | e :: es => stepWrites cfg s e ++ collectWrites cfg (stepEvent cfg s e) es

/-- Invariant: while the run is live, any committed (`completed`)
resolution carries exactly the current plan, and the picker is already
disposed. -/
def CompletedInv (s : WState) : Prop :=
  ∀ p m, s.resolved = some ⟨RStatus.completed, some p, m⟩ →
    p = s.plan ∧ s.disposed = true

/-! ## Polling loops (menu/index.ts)

The instance-state loops (`createInstance`, `rebulidInstanceItems`,
`powerInstanceItems`) fetch the state once before the `while` loop and then
re-fetch inside it while the state differs from the target and
`attempts < maxAttempts`; `attempts` counts only in-loop fetches.  The
boot-script poll fetches once per iteration of `while (attempts < maxAttempts)`.
Time (`delay`) is erased; `fetch i` is the result of the i-th remote fetch. -/
/-- The `while (state !== target && attempts < maxAttempts)` loop, with
`fuel = maxAttempts - attempts` remaining loop iterations; returns the
total number of fetches performed and the last observed state
(`none` models a failed `getInstanceState`, whose optional chaining also
compares unequal to the target). -/
def instPollAux (fetch : ℕ → Option String) (target : String) :
    ℕ → Option String → ℕ → ℕ × Option String
  | 0, cur, cnt => (cnt, cur)
  | fuel + 1, cur, cnt =>
    if cur = some target then (cnt, cur)
    else instPollAux fetch target fuel (fetch cnt) (cnt + 1)

/-- The instance-state polling phase: one fetch before the loop, then the
loop bounded by `maxAttempts`. -/
def createInstancePoll (fetch : ℕ → Option String) (target : String)
    (maxAttempts : ℕ) : ℕ × Option String :=
  instPollAux fetch target maxAttempts (fetch 0) 1

/-- The whole progress task of `createInstance` after the mutation call:
run the polling phase against target state "running", then report the
success milestone — the report is unconditional, it happens whether or not
the target state was ever observed. -/
def createInstanceTask (fetch : ℕ → Option String) (maxAttempts : ℕ) :
    ℕ × String :=
  ((createInstancePoll fetch "running" maxAttempts).1, "实例创建成功")

/-- Outcome of one `getCommandResult` call: a response with an HTTP status
and optional `data.data.output`, or a thrown error carrying
`error.response?.status`, `error.response?.data?.message` and
`error.message`. -/
inductive CmdResp
  | resp (status : ℕ) (output : Option String)
  | thrown (status : Option ℕ) (dataMsg : Option String) (errMsg : String)
deriving DecidableEq, Repr

/-- Notification channels used when a poll ends. -/
inductive NotifKind
  | info
  | warning
  | errorNote
deriving DecidableEq, Repr

/-- Terminal outcome of the boot-script poll. -/
inductive BootOutcome
  | completed (out : String)
  | failed (msg : String)
  | timedOut
deriving DecidableEq, Repr

/-- Result of a boot-script poll run: outcome, number of fetches, the
`updateLogEntry` calls (status, detail) and the notifications shown. -/
structure BootPollResult where
  outcome : BootOutcome
  fetches : ℕ
  logUpdates : List (String × String)
  notifs : List (NotifKind × String)
deriving DecidableEq, Repr

/-- The error detail `error.response?.data?.message || error.message`
(an empty response message is falsy and falls through). -/
def errDetail (dataMsg : Option String) (errMsg : String) : String :=
  match dataMsg with
  | some m => if m = "" then errMsg else m
  | none => errMsg

/-- Classification of one poll iteration: success when the response is 200
with a truthy output; a thrown error with status 202 (still executing) is
ignored; any other thrown error is a failure carrying the error detail;
everything else is an empty poll. -/
inductive PollStep
  | success (out : String)
  | failure (msg : String)
  | nextPoll
deriving DecidableEq, Repr

/-- Classify one `getCommandResult` outcome as the loop body does. -/
def classifyCmdResp : CmdResp → PollStep
  | .resp status out =>
    if status = 200 then
      match out with
      | some o => if o = "" then PollStep.nextPoll else PollStep.success o
      | none => PollStep.nextPoll
    else PollStep.nextPoll
  | .thrown status dataMsg errMsg =>
    if status = some 202 then PollStep.nextPoll
    else PollStep.failure ("获取结果失败: " ++ errDetail dataMsg errMsg)

/-- The body of `pollBootScriptResult` with `fuel` loop iterations left and
`cnt` fetches already performed. -/
def pollBootAux (resp : ℕ → CmdResp) (scriptName : String) :
    ℕ → ℕ → BootPollResult
  | cnt, 0 =>
    ⟨BootOutcome.timedOut, cnt, [("failed", "获取结果超时")],
      [(NotifKind.warning, "脚本 " ++ scriptName ++ " 执行结果获取超时")]⟩
  | cnt, fuel + 1 =>
    match classifyCmdResp (resp cnt) with
    | PollStep.success o =>
      ⟨BootOutcome.completed o, cnt + 1, [("completed", o)],
        [(NotifKind.info, "脚本 " ++ scriptName ++ " 执行成功")]⟩
    | PollStep.failure m =>
      ⟨BootOutcome.failed m, cnt + 1, [("failed", m)],
        [(NotifKind.errorNote, "脚本 " ++ scriptName ++ " 执行失败: " ++ m)]⟩
    | PollStep.nextPoll => pollBootAux resp scriptName (cnt + 1) fuel

/-- `pollBootScriptResult(instanceId, commandUid, scriptName)` with its
remote calls abstracted into the sequence `resp`. -/
def pollBootScriptResult (resp : ℕ → CmdResp) (scriptName : String)
    (maxAttempts : ℕ) : BootPollResult :=
  pollBootAux resp scriptName 0 maxAttempts

/-! ## Instance state service (aliceService.ts)

`getInstanceState` converts memory figures (kilobyte strings) with
`(parseInt(mem,10) / (1024*1024)).toFixed(2)` and traffic figures (bytes)
with `Number((bytes / 2**30).toFixed(2))`, and rewrites the power state to
"stopped" whenever the formatted available memory is exactly "0.00".
`toFixed` on an exact rational is modelled by its specification: round to
the nearest hundredth, ties toward the larger value, sign handled first. -/
/-- `⌊ num / den + 1/2 ⌋` for `den > 0`, computed as
`(2 * num + den).fdiv (2 * den)` — the `n` chosen by the `toFixed`
specification (nearest value, ties toward the larger `n`) for a
non-negative argument `num / den`. -/
def roundHalfUpFrac (num : ℤ) (den : ℤ) : ℤ :=
  Int.fdiv (2 * num + den) (2 * den)

/-- Render the non-negative fraction `num / den` with exactly two
decimals. -/
def toFixed2FracAbs (num : ℤ) (den : ℤ) : String :=
  let n := (roundHalfUpFrac (num * 100) den).toNat
  natDecString (n / 100) ++ "." ++
    (if n % 100 < 10 then "0" ++ natDecString (n % 100) else natDecString (n % 100))

/-- JS `(num / den).toFixed(2)` on an exact fraction with `den > 0`: the
sign is split off first, as the specification does. -/
def toFixed2Frac (num : ℤ) (den : ℤ) : String :=
  if num < 0 then "-" ++ toFixed2FracAbs (-num) den else toFixed2FracAbs num den

/-- `formatMemory`: `(parseInt(mem, 10) / (1024 * 1024)).toFixed(2)`;
`parseInt` failing gives NaN, whose `toFixed` renders "NaN". -/
def formatMemory (mem : String) : String :=
  match listParseInt mem.data with
  | none => "NaN"
  | some n => toFixed2Frac n (1024 * 1024)

/-- `bytesToGB`: `Number((bytes / (1024*1024*1024)).toFixed(2))` — the
rounded two-decimal value, exactly. -/
def bytesToGB (b : ℤ) : JsDec :=
  if b < 0 then ⟨-(roundHalfUpFrac ((-b) * 100) (1024 * 1024 * 1024)), 2⟩
  else ⟨roundHalfUpFrac (b * 100) (1024 * 1024 * 1024), 2⟩

/-- Memory block of an instance state (strings: raw kilobyte figures from
the remote, converted in place to gigabyte strings). -/
structure MemOut where
  memtotal : String
  memfree : String
  memavailable : String
deriving DecidableEq, Repr

/-- Traffic block (source field names are `in`/`out`/`total`; `in` is a
Lean keyword, hence the `t` prefix).  Raw values are byte counts; the
service overwrites them with rounded gigabyte values, so the fields hold
exact decimals. -/
structure TrafficOut where
  tIn : JsDec
  tOut : JsDec
  tTotal : JsDec
deriving DecidableEq, Repr

/-- Inner state of an instance state payload (`cpu` is carried through
untouched). -/
structure StateOut where
  state : String
  cpu : JsDec
  memory : MemOut
  traffic : TrafficOut
deriving DecidableEq, Repr

/-- The `InstanceState` payload. -/
structure InstanceStateOut where
  status : String
  state : StateOut
deriving DecidableEq, Repr

/-- One `aliceApi.getInstanceState` outcome. -/
inductive StateResp
  | ok (status : ℕ) (data : Option InstanceStateOut)
  | thrown (msg : String)
deriving DecidableEq, Repr

/-- `AliceService.getInstanceState`: on a 200 response with data and status
"complete", convert memory and traffic in place and force the state to
"stopped" when the converted available memory reads "0.00"; a thrown error
notifies and returns `undefined`; any other response returns `undefined`. -/
def getInstanceState (r : StateResp) : Option InstanceStateOut :=
  match r with
  | .thrown _ => none
  | .ok code d =>
    match d with
    | some info =>
      if code = 200 then
        if info.status = "complete" then
          let m := info.state.memory
          let mem2 : MemOut :=
            ⟨formatMemory m.memtotal, formatMemory m.memfree, formatMemory m.memavailable⟩
          let t := info.state.traffic
          let tr2 : TrafficOut :=
            ⟨bytesToGB t.tIn.num, bytesToGB t.tOut.num, bytesToGB t.tTotal.num⟩
          let st2 := if mem2.memavailable = "0.00" then "stopped" else info.state.state
          some ⟨info.status, ⟨st2, info.state.cpu, mem2, tr2⟩⟩
        else some info
      else none
    | none => none

/-! ## Configuration refresh (AliceService.updateConfig) -/
/-- `evoPermissions` after processing: `allow_packages` split on "|" when
present; `max_time` may be absent (the raw `{}` fallback). -/
structure EvoPerm where
  allow_packages : Option (List String)
  max_time : Option ℤ
deriving DecidableEq, Repr

/-- Raw permissions payload (`allow_packages` still a "1|2|3" string). -/
structure RawPerm where
  allow_packages : Option String
  max_time : Option ℤ
deriving DecidableEq, Repr

/-- Raw plan payload: `os` is the embedded allow-list string when present. -/
structure RawPlan where
  id : ℤ
  name : String
  osSpec : Option String
deriving DecidableEq, Repr

/-- One group of the `getPlanToOS` response (`group.os_list`). -/
structure OsGroup where
  os_list : List OsCfg
deriving DecidableEq, Repr

/-- Stored instance record (times already converted to local, modelled as
epoch milliseconds since the timezone conversion is an external helper). -/
structure InstanceRec where
  id : ℤ
  expiration_ms : ℤ
  plan_id : ℤ
deriving DecidableEq, Repr

/-- The shared `CONFIG` fields the service mutates. -/
structure Store where
  hasEvoPermission : Bool
  evoPermissions : EvoPerm
  planList : List PlanCfg
  sshKeyList : List SshKeyCfg
  instanceList : List InstanceRec
  instanceState : Option InstanceStateOut
  doNotRemindExpiration : Bool
  updateStatusBarInterval : Bool
deriving DecidableEq, Repr

/-- Outcome of the `getEVOPermissions` call. -/
inductive PermResp
  | ok200 (d : Option RawPerm)
  | okOther
  | err400
  | errOther
deriving DecidableEq, Repr

/-- Outcome of a catalog fetch whose handler checks `status === 200` and
whose catch only logs: a 200 response (with possibly missing data), another
success status, or a thrown error. -/
inductive FetchResp (α : Type)
  | ok200 (d : Option α)
  | okOther
  | err
deriving DecidableEq, Repr

/-- Outcome of the instance-list fetch: its catch distinguishes 401 (which
returns from the whole progress task) from other errors (which only notify). -/
inductive InstResp
  | ok (d : Option (List InstanceRec))
  | err401
  | errOther
deriving DecidableEq, Repr

/-- All remote responses one full refresh consumes; `osFor` maps a plan id
to its `getPlanToOS` outcome (`none` covering both a thrown error and a
non-200/deficient response, which the source collapses to an empty list). -/
structure RefreshResponses where
  instances : InstResp
  perm : PermResp
  plans : FetchResp (List RawPlan)
  osFor : ℤ → Option (List OsGroup)
  sshKeys : FetchResp (List SshKeyCfg)

/-- Resolve one plan against its variant-catalog fetch: flatten the groups,
filter by the embedded allow-list when one exists, and fall back to the
empty list when the fetch failed. -/
def processPlan (raw : RawPlan) (osResp : Option (List OsGroup)) : PlanCfg :=
  let originalOsIds : List String :=
    match raw.osSpec with
    | some sp => sp.splitOn ("|")
    | none => []
  match osResp with
  | some groups =>
    let allOs := (groups.map (fun g => g.os_list)).flatten
    if originalOsIds.isEmpty then ⟨raw.id, raw.name, allOs⟩
    else ⟨raw.id, raw.name, allOs.filter (fun o => originalOsIds.contains (intRepr o.id))⟩
  | none => ⟨raw.id, raw.name, []⟩

/-- Process the `getEVOPermissions` outcome: a 200 response stores the
permissions (splitting `allow_packages`) and sets the flag; a 400 error
clears the flag; anything else leaves the store untouched. -/
def applyPerm (st : Store) (r : PermResp) : Store :=
  match r with
  | .ok200 d =>
    { st with
      evoPermissions :=
        match d with
        | some p => ⟨p.allow_packages.map (fun sp => sp.splitOn ("|")), p.max_time⟩
        | none => ⟨none, none⟩,
      hasEvoPermission := true }
  | .okOther => st
  | .err400 => { st with hasEvoPermission := false }
  | .errOther => st

/-- Process the instance-list fetch (also the whole of
`updateConfig("instance")`). -/
def applyInstances (st : Store) (r : InstResp) : Store :=
  match r with
  | .ok d => { st with instanceList := d.getD [] }
  | .err401 => st
  | .errOther => st

/-- Process the plan-list fetch: filter by `allow_packages` when present,
resolve each plan variant catalog, and store the result; a non-200 or
thrown plan-list fetch leaves the stored list untouched. -/
def refreshPlanList (st : Store) (r : FetchResp (List RawPlan))
    (osFor : ℤ → Option (List OsGroup)) : Store :=
  match r with
  | .ok200 d =>
    let filtered : List RawPlan :=
      match d, st.evoPermissions.allow_packages with
      | some pl, some pkgs => pl.filter (fun p => pkgs.contains (intRepr p.id))
      | some pl, none => pl
      | none, _ => []
    { st with planList := filtered.map (fun p => processPlan p (osFor p.id)) }
  | .okOther => st
  | .err => st

/-- Process the SSH-key fetch (time conversion is an external helper and is
elided). -/
def refreshSshKeys (st : Store) (r : FetchResp (List SshKeyCfg)) : Store :=
  match r with
  | .ok200 d => { st with sshKeyList := d.getD [] }
  | .okOther => st
  | .err => st

/-- `updateConfig("all")`: instance list first (a 401 aborts the whole
task), then permissions; when the permission flag is not set the dependent
catalog fetches are skipped; otherwise plan list (with per-plan variant
catalogs) and then SSH keys. -/
def updateConfigAll (st : Store) (r : RefreshResponses) : Store :=
  match r.instances with
  | .err401 => st
  | _ =>
    let st0 := applyInstances st r.instances
    let st1 := applyPerm st0 r.perm
    if st1.hasEvoPermission = false then st1
    else refreshSshKeys (refreshPlanList st1 r.plans r.osFor) r.sshKeys

/-! ## Expiration check (AliceService.checkInstanceExpiration) -/
/-- User-visible notifications the expiration check can produce. -/
inductive ExpNotif
  | errorDeleted (id : ℤ)
  | warnRenew (id : ℤ)
deriving DecidableEq, Repr

/-- The synchronous run of `checkInstanceExpiration`: it reads
`CONFIG.instanceList[0].expiration_at` before any emptiness or suppression
check, so an empty stored list is a `TypeError` (`none`).  In the expired
branch `this.updateConfig("instance")` is started WITHOUT `await`; its
store writes can only land after this function has returned (the fetch
suspends at least once), so the `CONFIG.instanceList.length > 0` re-check
still reads the entry list.  The boolean reports whether the refresh was
started. -/
def checkInstanceExpirationSync (st : Store) (now : ℤ) :
    Option (Store × Bool × List ExpNotif) :=
  match st.instanceList.head? with
  | none => none
  | some inst =>
    let timeLeft := inst.expiration_ms - now
    if st.doNotRemindExpiration then some (st, false, [])
    else if timeLeft < 0 then
      if st.instanceList.length > 0 then some (st, true, [])
      else
        some
          ({ st with
              instanceList := [],
              instanceState := none,
              doNotRemindExpiration := false,
              updateStatusBarInterval := false },
            true, [ExpNotif.errorDeleted inst.id])
    else if timeLeft < 5 * 60 * 1000 then some (st, false, [ExpNotif.warnRenew inst.id])
    else some (st, false, [])

/-- The state after the fire-and-forget `updateConfig("instance")` (when it
was started) eventually lands its instance-list write. -/
def checkInstanceExpirationEventual (st : Store) (now : ℤ)
    (refreshed : List InstanceRec) : Option (Store × List ExpNotif) :=
  (checkInstanceExpirationSync st now).map
    (fun r => (if r.2.1 then { r.1 with instanceList := refreshed } else r.1, r.2.2))

/-- Concrete instantiation used by the C1 witness. -/
def cfgW : Config :=
  { hasEvoPermission := true
    planList := [⟨7, "R", [⟨3, "V"⟩]⟩]
    maxTime := 5
    sshKeyList := []
    scriptItems := [] }

/-- A live wizard state sitting on the duration step. -/
def stW : WState :=
  { currentStep := Step.EnterTime
    plan := ⟨some ⟨7, 0⟩, some ⟨3, 0⟩, none, none, ""⟩
    errorMessage := none
    value := ""
    items := [Item.back]
    isCompleted := false
    resolved := none
    disposed := false
    renders := [Step.SelectPlan, Step.SelectOS, Step.EnterTime] }

/-- Wizard configuration for the concrete completed runs. -/
def cfg6 : Config :=
  { hasEvoPermission := true
    planList := [⟨7, "R", [⟨3, "V"⟩]⟩]
    maxTime := 24
    sshKeyList := [⟨5, "k1", "2024-01-01"⟩]
    scriptItems := [] }

/-- Initial rendered state of a `cfg6` run. -/
def st06 : WState := updateView cfg6 (initWState none)

/-- Forward-only event list of the C6 run: select plan R (id 7), OS V
(id 3), enter "12", choose no SSH key, choose no boot script. -/
def evs6 : List WEvent :=
  [WEvent.accept (some (Item.opt "R" (some "7"))) "",
   WEvent.accept (some (Item.opt "V" (some "3"))) "",
   WEvent.accept none "12",
   WEvent.accept (some (Item.opt "不使用 SSH Key" none)) "",
   WEvent.accept (some (Item.opt "不使用启动脚本" none)) ""]

/-- Event list with a back transition: after entering the duration the user
goes back to the duration step from the SSH step, re-enters a new duration,
then finishes. -/
def evsBack : List WEvent :=
  [WEvent.accept (some (Item.opt "R" (some "7"))) "",
   WEvent.accept (some (Item.opt "V" (some "3"))) "",
   WEvent.accept none "4",
   WEvent.accept (some Item.back) "",
   WEvent.accept none "12",
   WEvent.accept (some (Item.opt "不使用 SSH Key" none)) "",
   WEvent.accept (some (Item.opt "不使用启动脚本" none)) ""]

/-- The request committed by the `evsBack` run. -/
def planBack : WizPlan := ⟨some ⟨7, 0⟩, some ⟨3, 0⟩, some ⟨12, 0⟩, none, ""⟩

/-- The request committed by the C6 run. -/
def plan6 : WizPlan := ⟨some ⟨7, 0⟩, some ⟨3, 0⟩, some ⟨12, 0⟩, none, ""⟩

/-- Concrete remote payload for the C9 witness: the remote claims the
instance is running while only 5000 KB (&lt; 0.005 GB) are available. -/
def infoW : InstanceStateOut :=
  ⟨"complete",
    ⟨"running", ⟨5, 0⟩, ⟨"8000000", "4000", "5000"⟩,
      ⟨⟨100, 0⟩, ⟨200, 0⟩, ⟨300, 0⟩⟩⟩⟩

/-- Store with a single expired instance for the C10 analysis. -/
def storeExpired : Store :=
  { hasEvoPermission := true
    evoPermissions := ⟨none, some 24⟩
    planList := []
    sshKeyList := []
    instanceList := [⟨42, 1000, 7⟩]
    instanceState := some infoW
    doNotRemindExpiration := false
    updateStatusBarInterval := true }

/-! ## Round-trip lemmas for canonical decimal strings -/
theorem digitChar_isDigit (k : ℕ) (h : k < 10) : isDigitChar (digitChar k) = true := by
  interval_cases k <;> decide

theorem digitVal_digitChar (k : ℕ) (h : k < 10) : digitVal (digitChar k) = k := by
  interval_cases k <;> decide

theorem natDecDigitsAux_fuel (fuel : ℕ) :
    ∀ n fuel2, n < fuel → n < fuel2 →
      natDecDigitsAux fuel n = natDecDigitsAux fuel2 n := by
  induction fuel with
  | zero => intro n fuel2 h1 _; omega
  | succ fuel ih =>
    intro n fuel2 h1 h2
    cases fuel2 with
    | zero => omega
    | succ fuel2 =>
      rw [natDecDigitsAux, natDecDigitsAux]
      split
      · rfl
      · rw [ih (n / 10) fuel2
          (by have := Nat.div_lt_self (show 0 < n by omega) (show 1 < 10 by omega); omega)
          (by have := Nat.div_lt_self (show 0 < n by omega) (show 1 < 10 by omega); omega)]

theorem natDecDigits_expand (n : ℕ) :
    natDecDigits n =
      if n < 10 then [digitChar n]
      else natDecDigits (n / 10) ++ [digitChar (n % 10)] := by
  unfold natDecDigits
  rw [natDecDigitsAux]
  split
  · rfl
  · rw [natDecDigitsAux_fuel n (n / 10) (n / 10 + 1)
      (by have := Nat.div_lt_self (show 0 < n by omega) (show 1 < 10 by omega); omega)
      (by omega)]

theorem natDecDigits_digits (n : ℕ) : ∀ c ∈ natDecDigits n, isDigitChar c = true := by
  induction n using Nat.strong_induction_on with
  | _ n ih =>
    rw [natDecDigits_expand]
    split
    · intro c hc
      simp only [List.mem_singleton] at hc
      subst hc
      exact digitChar_isDigit n (by omega)
    · intro c hc
      rcases List.mem_append.mp hc with h1 | h2
      · exact ih (n / 10) (Nat.div_lt_self (by omega) (by omega)) c h1
      · simp only [List.mem_singleton] at h2
        subst h2
        exact digitChar_isDigit _ (Nat.mod_lt _ (by omega))

theorem natDecDigits_ne_nil (n : ℕ) : natDecDigits n ≠ [] := by
  rw [natDecDigits_expand]
  split
  · simp
  · simp

theorem digitsToNat_natDecDigits (n : ℕ) : digitsToNat (natDecDigits n) = n := by
  induction n using Nat.strong_induction_on with
  | _ n ih =>
    rw [natDecDigits_expand]
    split
    · simp only [digitsToNat, List.foldl_cons, List.foldl_nil, Nat.mul_zero, Nat.zero_add]
      exact digitVal_digitChar n (by omega)
    · rw [digitsToNat, List.foldl_append]
      have h1 : (natDecDigits (n / 10)).foldl (fun a c => 10 * a + digitVal c) 0 = n / 10 :=
        ih (n / 10) (Nat.div_lt_self (by omega) (by omega))
      simp only [List.foldl_cons, List.foldl_nil, h1]
      rw [digitVal_digitChar _ (Nat.mod_lt _ (by omega))]
      omega

theorem digit_not_ws (c : Char) (h : isDigitChar c = true) : isWsChar c = false := by
  simp only [isDigitChar, decide_eq_true_eq] at h
  simp only [isWsChar, decide_eq_false_iff_not]
  omega

theorem dropWhile_eq_self_of_forall {p : Char → Bool} :
    ∀ l : List Char, (∀ c ∈ l, p c = false) → l.dropWhile p = l := by
  intro l h
  cases l with
  | nil => rfl
  | cons a t =>
    rw [List.dropWhile_cons, h a (List.mem_cons_self a t)]
    simp

theorem takeWhile_eq_self_of_forall {p : Char → Bool} :
    ∀ l : List Char, (∀ c ∈ l, p c = true) → l.takeWhile p = l := by
  intro l
  induction l with
  | nil => intro _; rfl
  | cons a t ih =>
    intro h
    rw [List.takeWhile_cons, h a (List.mem_cons_self a t)]
    simp [ih (fun c hc => h c (List.mem_cons_of_mem a hc))]

theorem dropWhile_eq_nil_of_forall {p : Char → Bool} :
    ∀ l : List Char, (∀ c ∈ l, p c = true) → l.dropWhile p = [] := by
  intro l
  induction l with
  | nil => intro _; rfl
  | cons a t ih =>
    intro h
    rw [List.dropWhile_cons, h a (List.mem_cons_self a t)]
    exact ih (fun c hc => h c (List.mem_cons_of_mem a hc))

theorem trimChars_of_digits (l : List Char) (h : ∀ c ∈ l, isDigitChar c = true) :
    trimChars l = l := by
  unfold trimChars
  rw [dropWhile_eq_self_of_forall l (fun c hc => digit_not_ws c (h c hc))]
  rw [dropWhile_eq_self_of_forall l.reverse
      (fun c hc => digit_not_ws c (h c (List.mem_reverse.mp hc)))]
  exact List.reverse_reverse l

theorem readSign_of_digits (l : List Char) (h : ∀ c ∈ l, isDigitChar c = true) :
    readSign l = (false, l) := by
  cases l with
  | nil => rfl
  | cons c t =>
    have hd := h c (List.mem_cons_self c t)
    have hm : c ≠ '-' := by
      intro e
      rw [e] at hd
      exact absurd hd (by decide)
    have hp : c ≠ '+' := by
      intro e
      rw [e] at hd
      exact absurd hd (by decide)
    simp only [readSign, if_neg hm, if_neg hp]

theorem listParseInt_natDecDigits (n : ℕ) :
    listParseInt (natDecDigits n) = some (n : ℤ) := by
  have hd := natDecDigits_digits n
  simp only [listParseInt]
  rw [dropWhile_eq_self_of_forall _ (fun c hc => digit_not_ws c (hd c hc)),
    readSign_of_digits _ hd]
  simp only
  rw [takeWhile_eq_self_of_forall _ hd]
  rw [if_neg (by simp [List.isEmpty_iff, natDecDigits_ne_nil n])]
  simp [digitsToNat_natDecDigits n]

theorem listParseFloat_natDecDigits (n : ℕ) :
    listParseFloat (natDecDigits n) = some ⟨(n : ℤ), 0⟩ := by
  have hd := natDecDigits_digits n
  simp only [listParseFloat]
  rw [dropWhile_eq_self_of_forall _ (fun c hc => digit_not_ws c (hd c hc)),
    readSign_of_digits _ hd]
  simp only
  rw [takeWhile_eq_self_of_forall _ hd, dropWhile_eq_nil_of_forall _ hd]
  simp [List.isEmpty_iff, natDecDigits_ne_nil n, digitsToNat_natDecDigits n]

/-! ### Frame lemmas -/
theorem tryResolve_plan (s : WState) (r : CreateInstanceResult) :
    (tryResolve s r).plan = s.plan := by
  unfold tryResolve
  split <;> rfl

theorem tryResolve_step (s : WState) (r : CreateInstanceResult) :
    (tryResolve s r).currentStep = s.currentStep := by
  unfold tryResolve
  split <;> rfl

theorem tryResolve_resolved_some (s : WState) (r r0 : CreateInstanceResult)
    (h : s.resolved = some r0) : (tryResolve s r).resolved = some r0 := by
  unfold tryResolve
  rw [if_pos (by rw [h]; rfl)]
  exact h

theorem doHide_plan (s : WState) : (doHide s).plan = s.plan := by
  unfold doHide
  split <;> simp [tryResolve_plan]

theorem doHide_step (s : WState) : (doHide s).currentStep = s.currentStep := by
  unfold doHide
  split <;> simp [tryResolve_step]

theorem doHide_resolved_some (s : WState) (r0 : CreateInstanceResult)
    (h : s.resolved = some r0) : (doHide s).resolved = some r0 := by
  unfold doHide
  split
  · exact h
  · simp [tryResolve_resolved_some s _ r0 h]

theorem updateView_plan (cfg : Config) (s : WState) :
    (updateView cfg s).plan = s.plan := by
  unfold updateView
  cases s.currentStep <;>
    simp only [showView, resolveHide] <;>
    first
      | rfl
      | (split <;> first
          | rfl
          | (split <;> simp [doHide_plan, tryResolve_plan])
          | simp [doHide_plan, tryResolve_plan])

theorem updateView_step (cfg : Config) (s : WState) :
    (updateView cfg s).currentStep = s.currentStep := by
  unfold updateView
  cases s.currentStep <;>
    simp only [showView, resolveHide] <;>
    first
      | rfl
      | (split <;> first
          | rfl
          | (split <;> simp [doHide_step, tryResolve_step])
          | simp [doHide_step, tryResolve_step])

theorem updateView_resolved_some (cfg : Config) (s : WState)
    (r0 : CreateInstanceResult) (h : s.resolved = some r0) :
    (updateView cfg s).resolved = some r0 := by
  unfold updateView
  cases s.currentStep <;>
    simp only [showView, resolveHide] <;>
    first
      | exact h
      | (split <;>
          first
            | exact h
            | (apply doHide_resolved_some
               apply tryResolve_resolved_some
               exact h)
            | (split <;>
                first
                  | exact h
                  | (apply doHide_resolved_some
                     apply tryResolve_resolved_some
                     exact h)))

theorem tryResolve_resolved_cases (s : WState) (r : CreateInstanceResult) :
    (tryResolve s r).resolved = s.resolved ∨ (tryResolve s r).resolved = some r := by
  unfold tryResolve
  split
  · left; rfl
  · right; rfl

theorem doHide_disposed (s : WState) : (doHide s).disposed = true := by
  unfold doHide
  split <;> rfl

theorem doHide_resolved_cases (s : WState) :
    (doHide s).resolved = s.resolved ∨
      (doHide s).resolved = some ⟨RStatus.cancelled, none, none⟩ := by
  unfold doHide
  split
  · left; rfl
  · simpa using tryResolve_resolved_cases s ⟨RStatus.cancelled, none, none⟩

theorem resolveHide_resolved_cases (s : WState) (r : CreateInstanceResult) :
    (resolveHide s r).resolved = s.resolved ∨ (resolveHide s r).resolved = some r ∨
      (resolveHide s r).resolved = some ⟨RStatus.cancelled, none, none⟩ := by
  unfold resolveHide
  rcases doHide_resolved_cases (tryResolve s r) with h | h
  · rw [h]
    rcases tryResolve_resolved_cases s r with h2 | h2
    · left; exact h2
    · right; left; exact h2
  · right; right; exact h

theorem tryResolve_resolved_isSome (s : WState) (r : CreateInstanceResult) :
    (tryResolve s r).resolved.isSome = true := by
  unfold tryResolve
  split
  · assumption
  · rfl

theorem doHide_resolved_isSome (s : WState) (h : s.resolved.isSome = true) :
    (doHide s).resolved.isSome = true := by
  rcases doHide_resolved_cases s with h2 | h2 <;> rw [h2]
  · exact h
  · rfl

theorem resolveHide_resolved_isSome (s : WState) (r : CreateInstanceResult) :
    (resolveHide s r).resolved.isSome = true := by
  unfold resolveHide
  exact doHide_resolved_isSome _ (tryResolve_resolved_isSome s r)

/-- The resolutions `updateView` can add on its own are error resolutions
(or, through the hide it triggers, a cancellation) — never a completion. -/
theorem updateView_resolved_cases (cfg : Config) (s : WState) :
    (updateView cfg s).resolved = s.resolved ∨
      ∃ r, (updateView cfg s).resolved = some r ∧ r.status ≠ RStatus.completed := by
  cases hs : s.currentStep <;> simp only [updateView, hs]
  case SelectPlan => exact Or.inl rfl
  case SelectOS =>
    split
    · rcases resolveHide_resolved_cases _ _ with h | h | h
      · exact Or.inl h
      · exact Or.inr ⟨_, h, by simp [errResult]⟩
      · exact Or.inr ⟨_, h, by simp⟩
    · split
      · rcases resolveHide_resolved_cases _ _ with h | h | h
        · exact Or.inl h
        · exact Or.inr ⟨_, h, by simp [errResult]⟩
        · exact Or.inr ⟨_, h, by simp⟩
      · exact Or.inl rfl
  case EnterTime => exact Or.inl rfl
  case SelectSSHKey => exact Or.inl rfl
  case SelectBootScript => exact Or.inl rfl
  case Done => exact Or.inl rfl
  case Cancelled => exact Or.inl rfl

/-- Every state change performed by one event leaves the request equal to
the replay of the (zero or one) forward writes the event performed. -/
theorem stepEvent_plan (cfg : Config) (s : WState) (e : WEvent) :
    (stepEvent cfg s e).plan = (stepWrites cfg s e).foldl applyFW s.plan := by
  cases e with
  | hide =>
    simp only [stepEvent, stepWrites, List.foldl_nil]
    split
    · rfl
    · exact doHide_plan s
  | accept sel v =>
    simp only [stepEvent, stepWrites]
    by_cases hd : s.disposed
    · simp [hd]
    · simp only [if_neg hd]
      by_cases hb : sel = some Item.back
      · simp only [if_pos hb, onDidAccept]
        split
        · simp [updateView_plan]
        · simp
      · simp only [if_neg hb, onDidAccept]
        cases hc : s.currentStep with
        | SelectPlan =>
          cases hdd : descrOf sel with
          | none => rfl
          | some d =>
            by_cases he : d = ""
            · simp [he]
            · simp [he, updateView_plan, applyFW]
        | SelectOS =>
          cases hdd : descrOf sel with
          | none => rfl
          | some d =>
            by_cases he : d = ""
            · simp [he]
            · simp [he, updateView_plan, applyFW]
        | EnterTime =>
          cases hv : validateTime v cfg.maxTime with
          | ok t => simp [updateView_plan, applyFW]
          | error m => simp [updateView_plan]
        | SelectSSHKey =>
          cases sel with
          | none => rfl
          | some it => simp [updateView_plan, applyFW]
        | SelectBootScript =>
          cases sel with
          | none => rfl
          | some it => simp [doHide_plan, tryResolve_plan, applyFW]
        | Done => rfl
        | Cancelled => rfl

/-- Once the promise is resolved, no event changes the stored resolution. -/
theorem stepEvent_resolved_some (cfg : Config) (s : WState) (e : WEvent)
    (r0 : CreateInstanceResult) (h : s.resolved = some r0) :
    (stepEvent cfg s e).resolved = some r0 := by
  cases e with
  | hide =>
    simp only [stepEvent]
    split
    · exact h
    · exact doHide_resolved_some s r0 h
  | accept sel v =>
    simp only [stepEvent]
    split
    · exact h
    · simp only [onDidAccept]
      split
      · split
        · exact updateView_resolved_some cfg _ r0 h
        · exact h
      · cases hc : s.currentStep with
        | SelectPlan =>
          cases hdd : descrOf sel with
          | none => exact h
          | some d =>
            by_cases he : d = ""
            · simp [he, h]
            · simp [he]
              exact updateView_resolved_some cfg _ r0 h
        | SelectOS =>
          cases hdd : descrOf sel with
          | none => exact h
          | some d =>
            by_cases he : d = ""
            · simp [he, h]
            · simp [he]
              exact updateView_resolved_some cfg _ r0 h
        | EnterTime =>
          cases hv : validateTime v cfg.maxTime with
          | ok t => exact updateView_resolved_some cfg _ r0 h
          | error m => exact updateView_resolved_some cfg _ r0 h
        | SelectSSHKey =>
          cases sel with
          | none => exact h
          | some it => exact updateView_resolved_some cfg _ r0 h
        | SelectBootScript =>
          cases sel with
          | none => exact h
          | some it =>
            apply doHide_resolved_some
            apply tryResolve_resolved_some
            exact h
        | Done => exact h
        | Cancelled => exact h

theorem runEvents_resolved_some (cfg : Config) (s : WState)
    (es : List WEvent) (r0 : CreateInstanceResult) (h : s.resolved = some r0) :
    (runEvents cfg s es).resolved = some r0 := by
  induction es generalizing s with
  | nil => exact h
  | cons e es ih => exact ih (stepEvent cfg s e) (stepEvent_resolved_some cfg s e r0 h)

theorem runEvents_plan (cfg : Config) (s : WState) (es : List WEvent) :
    (runEvents cfg s es).plan = (collectWrites cfg s es).foldl applyFW s.plan := by
  induction es generalizing s with
  | nil => rfl
  | cons e es ih =>
    simp only [runEvents, collectWrites, List.foldl_append]
    rw [ih (stepEvent cfg s e), stepEvent_plan cfg s e]

theorem tryResolve_isCompleted (s : WState) (r : CreateInstanceResult) :
    (tryResolve s r).isCompleted = s.isCompleted := by
  unfold tryResolve
  split <;> rfl

theorem doHide_resolved_of_isCompleted (s : WState) (h : s.isCompleted = true) :
    (doHide s).resolved = s.resolved := by
  unfold doHide
  rw [if_pos h]

theorem completedInv_of_none (s : WState) (h : s.resolved = none) :
    CompletedInv s := by
  intro p m hr
  rw [h] at hr
  cases hr

theorem completedInv_updateView (cfg : Config) (s s2 : WState)
    (hres : s2.resolved = s.resolved)
    (hnc : ∀ p m, s.resolved ≠ some ⟨RStatus.completed, some p, m⟩) :
    CompletedInv (updateView cfg s2) := by
  intro p m hr
  rcases updateView_resolved_cases cfg s2 with h2 | ⟨r, h2, hst⟩
  · rw [h2, hres] at hr
    exact absurd hr (hnc p m)
  · rw [h2] at hr
    injection hr with hr2
    exact absurd (by rw [hr2]) hst

theorem completedInv_commit (s : WState) (p0 : WizPlan)
    (hnc : ∀ p m, s.resolved ≠ some ⟨RStatus.completed, some p, m⟩) :
    CompletedInv (doHide (tryResolve { s with plan := p0, isCompleted := true }
      ⟨RStatus.completed, some p0, none⟩)) := by
  intro p m hr
  refine ⟨?_, doHide_disposed _⟩
  rw [doHide_plan, tryResolve_plan]
  have hco : (tryResolve { s with plan := p0, isCompleted := true }
      (⟨RStatus.completed, some p0, none⟩ : CreateInstanceResult)).isCompleted = true := by
    rw [tryResolve_isCompleted]
  rw [doHide_resolved_of_isCompleted _ hco] at hr
  cases hres : s.resolved with
  | none =>
    have h1 : (tryResolve { s with plan := p0, isCompleted := true }
        (⟨RStatus.completed, some p0, none⟩ : CreateInstanceResult)).resolved
        = some ⟨RStatus.completed, some p0, none⟩ := by
      unfold tryResolve
      rw [if_neg (by simp [hres])]
    rw [h1] at hr
    injection hr with hr2
    injection hr2 with _ hplan _
    injection hplan with hp
    exact hp.symm
  | some r0 =>
    have h1 : (tryResolve { s with plan := p0, isCompleted := true }
        (⟨RStatus.completed, some p0, none⟩ : CreateInstanceResult)).resolved
        = some r0 := by
      unfold tryResolve
      rw [if_pos (by simp [hres])]
      exact hres
    rw [h1] at hr
    injection hr with hr2
    exact absurd (hres.trans (by rw [hr2])) (hnc p m)

theorem stepEvent_completedInv (cfg : Config) (s : WState) (e : WEvent)
    (h : CompletedInv s) : CompletedInv (stepEvent cfg s e) := by
  cases e with
  | hide =>
    simp only [stepEvent]
    split
    · exact h
    · intro p m hr
      rcases doHide_resolved_cases s with h2 | h2
      · rw [h2] at hr
        refine ⟨?_, doHide_disposed s⟩
        rw [doHide_plan]
        exact (h p m hr).1
      · rw [h2] at hr
        simp at hr
  | accept sel v =>
    simp only [stepEvent]
    split
    · exact h
    · rename_i hnd
      have hnc : ∀ p m, s.resolved ≠ some ⟨RStatus.completed, some p, m⟩ := by
        intro p m hr
        exact hnd ((h p m hr).2)
      simp only [onDidAccept]
      split
      · split
        · exact completedInv_updateView cfg s _ rfl hnc
        · exact h
      · cases hc : s.currentStep with
        | SelectPlan =>
          cases hdd : descrOf sel with
          | none => exact h
          | some d =>
            by_cases he : d = ""
            · simp only [he, ne_eq, not_true_eq_false, if_false]
              exact h
            · simp only [ne_eq, he, not_false_eq_true, if_true]
              exact completedInv_updateView cfg s _ rfl hnc
        | SelectOS =>
          cases hdd : descrOf sel with
          | none => exact h
          | some d =>
            by_cases he : d = ""
            · simp only [he, ne_eq, not_true_eq_false, if_false]
              exact h
            · simp only [ne_eq, he, not_false_eq_true, if_true]
              exact completedInv_updateView cfg s _ rfl hnc
        | EnterTime =>
          cases hv : validateTime v cfg.maxTime with
          | ok t => exact completedInv_updateView cfg s _ rfl hnc
          | error m => exact completedInv_updateView cfg s _ rfl hnc
        | SelectSSHKey =>
          cases sel with
          | none => exact h
          | some it => exact completedInv_updateView cfg s _ rfl hnc
        | SelectBootScript =>
          cases sel with
          | none => exact h
          | some it =>
            exact completedInv_commit { s with currentStep := Step.SelectBootScript }
              { s.plan with
                bootScript := if itemLabel it = "不使用启动脚本" then "" else itemLabel it }
              hnc
        | Done => exact h
        | Cancelled => exact h

theorem runEvents_completedInv (cfg : Config) (s : WState) (es : List WEvent)
    (h : CompletedInv s) : CompletedInv (runEvents cfg s es) := by
  induction es generalizing s with
  | nil => exact h
  | cons e es ih => exact ih (stepEvent cfg s e) (stepEvent_completedInv cfg s e h)

/-! ### Back affordance -/
theorem stepEvent_back_decrements (cfg : Config) (s : WState) (v : String)
    (hd : s.disposed = false) (hs : s.currentStep.toNat ≠ 0) :
    (stepEvent cfg s (WEvent.accept (some Item.back) v)).currentStep.toNat =
      s.currentStep.toNat - 1 := by
  simp only [stepEvent, hd, Bool.false_eq_true, if_false, onDidAccept, if_true]
  split
  · rw [updateView_step]
    cases hsc : s.currentStep <;> simp [Step.back, Step.toNat] <;>
      rw [hsc] at hs <;> simp [Step.toNat] at hs
  · omega

theorem updateView_back_first (cfg : Config) (s : WState)
    (hs : s.currentStep = Step.SelectPlan) :
    Item.back ∉ (updateView cfg s).items := by
  simp only [updateView, hs, showView]
  intro hmem
  simp only [List.mem_map] at hmem
  rcases hmem with ⟨p, _, hp⟩
  cases hp

theorem updateView_back_mid (cfg : Config) (s : WState)
    (hs : s.currentStep = Step.EnterTime ∨ s.currentStep = Step.SelectSSHKey ∨
      s.currentStep = Step.SelectBootScript) :
    Item.back ∈ (updateView cfg s).items := by
  rcases hs with hs | hs | hs <;> simp [updateView, hs, showView]

theorem updateView_back_os (cfg : Config) (s : WState)
    (hs : s.currentStep = Step.SelectOS) (h1 : s.resolved = none)
    (h2 : (updateView cfg s).resolved = none) :
    Item.back ∈ (updateView cfg s).items := by
  cases hf : cfg.planList.find? (fun p => jsEqId p.id s.plan.id) with
  | none =>
    exfalso
    simp only [updateView, hs, hf] at h2
    have h3 := resolveHide_resolved_isSome
      { s with currentStep := Step.SelectOS, errorMessage := none, value := "", items := [] }
      (errResult ("未能找到 Plan ID 为 " ++ jsNumRepr s.plan.id ++ " 的 OS 列表。"))
    rw [h2] at h3
    simp at h3
  | some pc =>
    by_cases ho : pc.os.isEmpty
    · exfalso
      simp only [updateView, hs, hf, ho, if_true] at h2
      have h3 := resolveHide_resolved_isSome
        { s with currentStep := Step.SelectOS, errorMessage := none, value := "", items := [] }
        (errResult ("Plan ID " ++ jsNumRepr s.plan.id ++ " 没有可用的操作系统。"))
      rw [h2] at h3
      simp at h3
    · simp [updateView, hs, hf, ho, showView]

/-! ### Poll lemmas -/
theorem instPollAux_never (fetch : ℕ → Option String) (target : String)
    (hf : ∀ i, fetch i ≠ some target) :
    ∀ fuel cur cnt, cur ≠ some target →
      (instPollAux fetch target fuel cur cnt).1 = cnt + fuel := by
  intro fuel
  induction fuel with
  | zero => intro cur cnt _; rfl
  | succ fuel ih =>
    intro cur cnt hcur
    rw [instPollAux, if_neg hcur]
    rw [ih (fetch cnt) (cnt + 1) (hf cnt)]
    omega

theorem createInstancePoll_never (fetch : ℕ → Option String) (target : String)
    (maxAttempts : ℕ) (hf : ∀ i, fetch i ≠ some target) :
    (createInstancePoll fetch target maxAttempts).1 = maxAttempts + 1 := by
  unfold createInstancePoll
  rw [instPollAux_never fetch target hf maxAttempts (fetch 0) 1 (hf 0)]
  omega

theorem pollBootAux_allPending (resp : ℕ → CmdResp) (nm : String)
    (hp : ∀ i, classifyCmdResp (resp i) = PollStep.nextPoll) :
    ∀ fuel cnt, pollBootAux resp nm cnt fuel =
      ⟨BootOutcome.timedOut, cnt + fuel, [("failed", "获取结果超时")],
        [(NotifKind.warning, "脚本 " ++ nm ++ " 执行结果获取超时")]⟩ := by
  intro fuel
  induction fuel with
  | zero => intro cnt; rfl
  | succ fuel ih =>
    intro cnt
    rw [pollBootAux, hp cnt, ih (cnt + 1)]
    have he : cnt + 1 + fuel = cnt + (fuel + 1) := by omega
    rw [he]

theorem pollBootAux_fail (resp : ℕ → CmdResp) (nm : String) (m : String) :
    ∀ j fuel cnt, (∀ i, i < j → classifyCmdResp (resp (cnt + i)) = PollStep.nextPoll) →
      j < fuel → classifyCmdResp (resp (cnt + j)) = PollStep.failure m →
      pollBootAux resp nm cnt fuel =
        ⟨BootOutcome.failed m, cnt + j + 1, [("failed", m)],
          [(NotifKind.errorNote, "脚本 " ++ nm ++ " 执行失败: " ++ m)]⟩ := by
  intro j
  induction j with
  | zero =>
    intro fuel cnt _ hlt hj
    cases fuel with
    | zero => omega
    | succ fuel =>
      rw [pollBootAux]
      rw [show cnt + 0 = cnt by omega] at hj
      rw [hj]
  | succ j ih =>
    intro fuel cnt hpre hlt hj
    cases fuel with
    | zero => omega
    | succ fuel =>
      rw [pollBootAux]
      have h0 : classifyCmdResp (resp cnt) = PollStep.nextPoll := by
        have := hpre 0 (by omega)
        rw [show cnt + 0 = cnt by omega] at this
        exact this
      rw [h0]
      have hres := ih fuel (cnt + 1)
        (fun i hi => by
          have := hpre (i + 1) (by omega)
          rw [show cnt + (i + 1) = cnt + 1 + i by omega] at this
          exact this)
        (by omega)
        (by rw [show cnt + 1 + j = cnt + (j + 1) by omega]; exact hj)
      rw [hres]
      have he : cnt + 1 + j + 1 = cnt + (j + 1) + 1 := by omega
      rw [he]

/-! ## Claim support lemmas -/
theorem updateView_resolved_of_ne_os (cfg : Config) (s : WState)
    (hs : s.currentStep ≠ Step.SelectOS) : (updateView cfg s).resolved = s.resolved := by
  cases hsc : s.currentStep with
  | SelectOS => exact absurd hsc hs
  | SelectPlan => simp only [updateView, hsc, showView]
  | EnterTime => simp only [updateView, hsc, showView]
  | SelectSSHKey => simp only [updateView, hsc, showView]
  | SelectBootScript => simp only [updateView, hsc, showView]
  | Done => simp only [updateView, hsc, showView]
  | Cancelled => simp only [updateView, hsc, showView]

theorem validateTime_natDecString (n : ℕ) (hn : 1 ≤ n) (maxT : ℤ) :
    validateTime (natDecString n) maxT =
      if (n : ℤ) > maxT then Except.error (timeErrOverMax maxT)
      else Except.ok (n : ℤ) := by
  have hd := natDecDigits_digits n
  have hdata : (natDecString n).data = natDecDigits n := rfl
  simp only [validateTime, hdata, trimChars_of_digits _ hd,
    listParseInt_natDecDigits n, listParseFloat_natDecDigits n]
  rw [if_neg (show ¬(n : ℤ) ≤ 0 by omega)]
  rw [if_neg (show ¬decEqInt (n : ℤ) ⟨(n : ℤ), 0⟩ = false by simp [decEqInt])]

theorem stepEvent_enterTime_reject (cfg : Config) (s : WState) (v : String)
    (hd : s.disposed = false) (hs : s.currentStep = Step.EnterTime)
    (m : String) (hv : validateTime v cfg.maxTime = Except.error m) :
    (stepEvent cfg s (WEvent.accept none v)).currentStep = Step.EnterTime ∧
    (stepEvent cfg s (WEvent.accept none v)).plan.time = s.plan.time ∧
    (stepEvent cfg s (WEvent.accept none v)).resolved = s.resolved := by
  simp only [stepEvent, hd, Bool.false_eq_true, if_false, onDidAccept, hs, hv]
  rw [if_neg (show ¬(none : Option Item) = some Item.back by simp)]
  refine ⟨?_, ?_, ?_⟩
  · rw [updateView_step]
  · rw [updateView_plan]
  · rw [updateView_resolved_of_ne_os]
    simp

theorem stepEvent_enterTime_accept (cfg : Config) (s : WState) (v : String)
    (hd : s.disposed = false) (hs : s.currentStep = Step.EnterTime)
    (t : ℤ) (hv : validateTime v cfg.maxTime = Except.ok t) :
    (stepEvent cfg s (WEvent.accept none v)).currentStep = Step.SelectSSHKey ∧
    (stepEvent cfg s (WEvent.accept none v)).plan.time = some ⟨t, 0⟩ ∧
    (stepEvent cfg s (WEvent.accept none v)).resolved = s.resolved := by
  simp only [stepEvent, hd, Bool.false_eq_true, if_false, onDidAccept, hs, hv]
  rw [if_neg (show ¬(none : Option Item) = some Item.back by simp)]
  refine ⟨?_, ?_, ?_⟩
  · rw [updateView_step]
  · rw [updateView_plan]
  · rw [updateView_resolved_of_ne_os]
    simp

theorem timeErrNotInteger_ne_overMax (maxT : ℤ) :
    timeErrNotInteger ≠ timeErrOverMax maxT := by
  intro h
  have h2 := congrArg (fun s => s.data.head?) h
  simp only [timeErrNotInteger, timeErrOverMax, String.data_append] at h2
  simp at h2

/-! ## Claim theorems -/
/-- Claim C1: in the duration step, the inputs "0", "-1", "abc" are
rejected as not a positive integer, "3.5" is rejected as non-integral, and
every integer above the configured maximum is rejected as over the maximum
(a message distinct from the non-integer one); every rejection leaves the
run on the duration step with the stored duration unchanged and resolves
nothing.  Every integer input from 1 up to the maximum validates, advances
exactly one step to the SSH-key step, and stores the parsed integer in the
request time field. -/
theorem c1_duration_validation (cfg : Config) (s : WState)
    (hmax : 1 ≤ cfg.maxTime)
    (hd : s.disposed = false) (hs : s.currentStep = Step.EnterTime) :
    validateTime "0" cfg.maxTime = Except.error timeErrNotPositive
  ∧ validateTime "-1" cfg.maxTime = Except.error timeErrNotPositive
  ∧ validateTime "abc" cfg.maxTime = Except.error timeErrNotPositive
  ∧ validateTime "3.5" cfg.maxTime = Except.error timeErrNotInteger
  ∧ (∀ n : ℕ, cfg.maxTime < (n : ℤ) →
      validateTime (natDecString n) cfg.maxTime
        = Except.error (timeErrOverMax cfg.maxTime))
  ∧ timeErrNotInteger ≠ timeErrOverMax cfg.maxTime
  ∧ (∀ v m, validateTime v cfg.maxTime = Except.error m →
      (stepEvent cfg s (WEvent.accept none v)).currentStep = Step.EnterTime ∧
      (stepEvent cfg s (WEvent.accept none v)).plan.time = s.plan.time ∧
      (stepEvent cfg s (WEvent.accept none v)).resolved = s.resolved)
  ∧ (∀ n : ℕ, 1 ≤ n → (n : ℤ) ≤ cfg.maxTime →
      validateTime (natDecString n) cfg.maxTime = Except.ok ((n : ℤ)) ∧
      (stepEvent cfg s (WEvent.accept none (natDecString n))).currentStep
        = Step.SelectSSHKey ∧
      (stepEvent cfg s (WEvent.accept none (natDecString n))).plan.time
        = some ⟨(n : ℤ), 0⟩) := by
  refine ⟨by rfl, by rfl, by rfl, by rfl, ?_, timeErrNotInteger_ne_overMax cfg.maxTime, ?_, ?_⟩
  · intro n hgt
    rw [validateTime_natDecString n (by omega) cfg.maxTime, if_pos (by omega)]
  · intro v m hv
    exact stepEvent_enterTime_reject cfg s v hd hs m hv
  · intro n h1 h2
    have hval : validateTime (natDecString n) cfg.maxTime = Except.ok ((n : ℤ)) := by
      rw [validateTime_natDecString n h1 cfg.maxTime, if_neg (by omega)]
    have hacc := stepEvent_enterTime_accept cfg s (natDecString n) hd hs (n : ℤ) hval
    exact ⟨hval, hacc.1, hacc.2.1⟩

/-- Witness for C1 at the configured maximum 5 and the input "3". -/
theorem c1_duration_validation_witness :
    validateTime "3.5" (5 : ℤ) = Except.error timeErrNotInteger ∧
    validateTime (natDecString 3) (5 : ℤ) = Except.ok ((3 : ℤ)) ∧
    (stepEvent cfgW stW (WEvent.accept none (natDecString 3))).currentStep
      = Step.SelectSSHKey ∧
    validateTime (natDecString 6) (5 : ℤ) = Except.error (timeErrOverMax 5) := by
  have h := c1_duration_validation cfgW stW (by decide) (by decide) (by decide)
  refine ⟨h.2.2.2.1, ?_, ?_, ?_⟩
  · exact (h.2.2.2.2.2.2.2 3 (by decide) (by decide)).1
  · exact (h.2.2.2.2.2.2.2 3 (by decide) (by decide)).2.1
  · exact h.2.2.2.2.1 6 (by decide)

/-! ## Remaining claim theorems -/
theorem refreshPlanList_flag (st : Store) (r : FetchResp (List RawPlan))
    (osFor : ℤ → Option (List OsGroup)) :
    (refreshPlanList st r osFor).hasEvoPermission = st.hasEvoPermission := by
  cases r <;> simp [refreshPlanList]

theorem refreshSshKeys_flag (st : Store) (r : FetchResp (List SshKeyCfg)) :
    (refreshSshKeys st r).hasEvoPermission = st.hasEvoPermission := by
  cases r <;> simp [refreshSshKeys]

/-- Claim C2 counterexample: the instance-state polling loop of
`createInstance` with a remote state that never reads "running" and
`maxAttempts = 60` performs 61 state fetches, not 60 (the fetch before the
loop is not counted in `attempts`). -/
theorem c2_counterexample_instance_poll :
    ¬ ((createInstanceTask (fun _ => some "pending") 60).1 = 60) := by decide

/-- Claim C2 (amended): with a predicate that never holds, the boot-script
poll performs exactly `maxAttempts` fetches and terminates with `timedOut`,
surfaced as a warning notification (a result value, not a thrown failure);
the instance-state polling loops perform `maxAttempts + 1` fetches (one
before the loop plus `maxAttempts` counted ones) and then proceed directly
to the unconditional success milestone report — they produce no timed-out
outcome at all. -/
theorem c2_amended_polling :
    (∀ fetch : ℕ → Option String, (∀ i, fetch i ≠ some "running") →
      ∀ maxAttempts,
        (createInstanceTask fetch maxAttempts).1 = maxAttempts + 1 ∧
        (createInstanceTask fetch maxAttempts).2 = "实例创建成功")
  ∧ (∀ (resp : ℕ → CmdResp) (scriptName : String) (maxAttempts : ℕ),
      (∀ i, classifyCmdResp (resp i) = PollStep.nextPoll) →
      pollBootScriptResult resp scriptName maxAttempts =
        ⟨BootOutcome.timedOut, maxAttempts, [("failed", "获取结果超时")],
          [(NotifKind.warning, "脚本 " ++ scriptName ++ " 执行结果获取超时")]⟩) := by
  constructor
  · intro fetch hf maxA
    refine ⟨?_, rfl⟩
    unfold createInstanceTask
    rw [createInstancePoll_never fetch "running" maxA hf]
  · intro resp nm maxA hp
    unfold pollBootScriptResult
    rw [pollBootAux_allPending resp nm hp maxA 0, Nat.zero_add]

/-- Witness for the amended C2 at never-running fetches and two attempts. -/
theorem c2_amended_polling_witness :
    (createInstanceTask (fun _ => some "stopped") 2).1 = 3 ∧
    pollBootScriptResult (fun _ => CmdResp.thrown (some 202) none "pending") "s" 2 =
      ⟨BootOutcome.timedOut, 2, [("failed", "获取结果超时")],
        [(NotifKind.warning, "脚本 " ++ "s" ++ " 执行结果获取超时")]⟩ := by
  have h := c2_amended_polling
  exact ⟨(h.1 (fun _ => some "stopped") (fun i => by simp) 2).1,
    h.2 (fun _ => CmdResp.thrown (some 202) none "pending") "s" 2
      (fun i => by simp [classifyCmdResp])⟩

/-- Claim C3: (1) every run that ends in a completed resolution commits
exactly the request obtained by replaying only the forward writes of the
run, in order, onto the starting request — so back transitions never reset
values and revisiting a step overwrites its field with the last accepted
value; (2) the back affordance decrements the step index by exactly one and
leaves the request untouched; (3)–(5) the back item is absent from the
first step's rendering and present on every later step's rendering (on the
OS step: whenever that rendering did not resolve the run with an error). -/
theorem c3_back_forward :
    (∀ cfg s es p m, s.resolved = none →
      (runEvents cfg s es).resolved = some ⟨RStatus.completed, some p, m⟩ →
      p = (collectWrites cfg s es).foldl applyFW s.plan)
  ∧ (∀ cfg s v, s.disposed = false → s.currentStep.toNat ≠ 0 →
      (stepEvent cfg s (WEvent.accept (some Item.back) v)).currentStep.toNat =
        s.currentStep.toNat - 1 ∧
      (stepEvent cfg s (WEvent.accept (some Item.back) v)).plan = s.plan)
  ∧ (∀ cfg s, s.currentStep = Step.SelectPlan →
      Item.back ∉ (updateView cfg s).items)
  ∧ (∀ cfg s, (s.currentStep = Step.EnterTime ∨ s.currentStep = Step.SelectSSHKey ∨
      s.currentStep = Step.SelectBootScript) →
      Item.back ∈ (updateView cfg s).items)
  ∧ (∀ cfg s, s.currentStep = Step.SelectOS → s.resolved = none →
      (updateView cfg s).resolved = none →
      Item.back ∈ (updateView cfg s).items) := by
  refine ⟨?_, ?_, ?_, ?_, ?_⟩
  · intro cfg s es p m h0 hres
    have hinv := runEvents_completedInv cfg s es (completedInv_of_none s h0)
    rw [(hinv p m hres).1, runEvents_plan]
  · intro cfg s v hd hs
    refine ⟨stepEvent_back_decrements cfg s v hd hs, ?_⟩
    rw [stepEvent_plan]
    simp [stepWrites, hd]
  · intro cfg s hs
    exact updateView_back_first cfg s hs
  · intro cfg s hs
    exact updateView_back_mid cfg s hs
  · intro cfg s hs h1 h2
    exact updateView_back_os cfg s hs h1 h2

/-- Witness for C3: the back/forward run commits exactly the fold of its
forward writes (the re-entered duration 12 overwrites the earlier 4), the
back affordance on the duration step decrements to the OS step, and the
back item is offered there but not on the first step. -/
theorem c3_back_forward_witness :
    planBack = (collectWrites cfg6 st06 evsBack).foldl applyFW st06.plan ∧
    (stepEvent cfg6 stW (WEvent.accept (some Item.back) "")).currentStep.toNat = 1 ∧
    Item.back ∉ (updateView cfg6 (initWState none)).items ∧
    Item.back ∈ (updateView cfg6 stW).items := by
  have h := c3_back_forward
  refine ⟨?_, ?_, ?_, ?_⟩
  · exact h.1 cfg6 st06 evsBack planBack none (by decide) (by decide)
  · exact (h.2.1 cfg6 stW "" (by decide) (by decide)).1
  · exact h.2.2.1 cfg6 (initWState none) (by decide)
  · exact h.2.2.2.1 cfg6 stW (Or.inl (by decide))

/-- Claim C4: a full refresh in which the variant-catalog fetch fails for
the middle plan and succeeds for the two others still completes: the
failing plan's OS list is empty, the other two are populated from their
responses, the permission flag is exactly what the permission step set (and
does not depend on the variant-catalog outcomes at all), and the SSH-key
fetch is still applied. -/
theorem c4_partial_failure (st : Store) (r : RefreshResponses)
    (il : List InstanceRec) (perm : RawPerm)
    (p1 p2 p3 : RawPlan) (g1 g3 : List OsGroup) (ks : List SshKeyCfg)
    (hinst : r.instances = InstResp.ok (some il))
    (hperm : r.perm = PermResp.ok200 (some perm))
    (hap : perm.allow_packages = none)
    (hplans : r.plans = FetchResp.ok200 (some [p1, p2, p3]))
    (h1 : r.osFor p1.id = some g1) (h2 : r.osFor p2.id = none)
    (h3 : r.osFor p3.id = some g3)
    (hssh : r.sshKeys = FetchResp.ok200 (some ks)) :
    (updateConfigAll st r).planList =
      [processPlan p1 (some g1), processPlan p2 none, processPlan p3 (some g3)]
  ∧ (processPlan p2 none).os = []
  ∧ (updateConfigAll st r).hasEvoPermission = true
  ∧ (updateConfigAll st r).sshKeyList = ks
  ∧ (∀ osF osF2 : ℤ → Option (List OsGroup),
      (updateConfigAll st { r with osFor := osF }).hasEvoPermission =
        (updateConfigAll st { r with osFor := osF2 }).hasEvoPermission) := by
  refine ⟨?_, ?_, ?_, ?_, ?_⟩
  · simp [updateConfigAll, hinst, hperm, hplans, hssh, applyPerm, applyInstances,
      refreshPlanList, refreshSshKeys, hap, h1, h2, h3]
  · simp [processPlan]
  · simp [updateConfigAll, hinst, hperm, hplans, hssh, applyPerm, applyInstances,
      refreshPlanList_flag, refreshSshKeys_flag]
  · simp [updateConfigAll, hinst, hperm, hplans, hssh, applyPerm, applyInstances,
      refreshPlanList, refreshSshKeys, hap]
  · intro osF osF2
    simp [updateConfigAll, hinst, hperm, applyPerm, applyInstances,
      refreshPlanList_flag, refreshSshKeys_flag]

/-- Witness instantiation for C4. -/
theorem c4_partial_failure_witness :
    (updateConfigAll
      { hasEvoPermission := false, evoPermissions := ⟨none, none⟩, planList := [],
        sshKeyList := [], instanceList := [], instanceState := none,
        doNotRemindExpiration := false, updateStatusBarInterval := false }
      { instances := InstResp.ok (some [])
        perm := PermResp.ok200 (some ⟨none, some 24⟩)
        plans := FetchResp.ok200 (some [⟨1, "a", none⟩, ⟨2, "b", none⟩, ⟨3, "c", none⟩])
        osFor := fun i => if i = 2 then none else some [⟨[⟨9, "os9"⟩]⟩]
        sshKeys := FetchResp.ok200 (some [⟨5, "k", "t"⟩]) }).planList =
      [⟨1, "a", [⟨9, "os9"⟩]⟩, ⟨2, "b", []⟩, ⟨3, "c", [⟨9, "os9"⟩]⟩] ∧
    (updateConfigAll
      { hasEvoPermission := false, evoPermissions := ⟨none, none⟩, planList := [],
        sshKeyList := [], instanceList := [], instanceState := none,
        doNotRemindExpiration := false, updateStatusBarInterval := false }
      { instances := InstResp.ok (some [])
        perm := PermResp.ok200 (some ⟨none, some 24⟩)
        plans := FetchResp.ok200 (some [⟨1, "a", none⟩, ⟨2, "b", none⟩, ⟨3, "c", none⟩])
        osFor := fun i => if i = 2 then none else some [⟨[⟨9, "os9"⟩]⟩]
        sshKeys := FetchResp.ok200 (some [⟨5, "k", "t"⟩]) }).hasEvoPermission = true := by
  have h := c4_partial_failure
    { hasEvoPermission := false, evoPermissions := ⟨none, none⟩, planList := [],
      sshKeyList := [], instanceList := [], instanceState := none,
      doNotRemindExpiration := false, updateStatusBarInterval := false }
    { instances := InstResp.ok (some [])
      perm := PermResp.ok200 (some ⟨none, some 24⟩)
      plans := FetchResp.ok200 (some [⟨1, "a", none⟩, ⟨2, "b", none⟩, ⟨3, "c", none⟩])
      osFor := fun i => if i = 2 then none else some [⟨[⟨9, "os9"⟩]⟩]
      sshKeys := FetchResp.ok200 (some [⟨5, "k", "t"⟩]) }
    [] ⟨none, some 24⟩ ⟨1, "a", none⟩ ⟨2, "b", none⟩ ⟨3, "c", none⟩
    [⟨[⟨9, "os9"⟩]⟩] [⟨[⟨9, "os9"⟩]⟩] [⟨5, "k", "t"⟩]
    rfl rfl rfl rfl (by decide) (by decide) (by decide) rfl
  exact ⟨by rw [h.1]; decide, h.2.2.1⟩

/-- Claim C5: in the boot-script result poll, any number of still-pending
classifications (thrown errors with HTTP status 202) are treated as normal
empty polls — each one just advances to the next attempt — while the first
response classified as any other error aborts the poll immediately as a
failure; the error detail (the response message, or the error message when
the former is absent or empty) is recorded in exactly one log update and
surfaced in exactly one error notification. -/
theorem c5_boot_poll_errors (resp : ℕ → CmdResp) (nm : String) (maxA j : ℕ)
    (st : Option ℕ) (dm : Option String) (em : String)
    (hj : j < maxA)
    (hpre : ∀ i, i < j → classifyCmdResp (resp i) = PollStep.nextPoll)
    (hfail : resp j = CmdResp.thrown st dm em) (h202 : st ≠ some 202) :
    (∀ cnt fuel, classifyCmdResp (resp cnt) = PollStep.nextPoll →
      pollBootAux resp nm cnt (fuel + 1) = pollBootAux resp nm (cnt + 1) fuel)
  ∧ pollBootScriptResult resp nm maxA =
      ⟨BootOutcome.failed ("获取结果失败: " ++ errDetail dm em), j + 1,
        [("failed", "获取结果失败: " ++ errDetail dm em)],
        [(NotifKind.errorNote,
          "脚本 " ++ nm ++ " 执行失败: " ++ ("获取结果失败: " ++ errDetail dm em))]⟩ := by
  constructor
  · intro cnt fuel hc
    rw [pollBootAux, hc]
  · have hcf : classifyCmdResp (resp j)
        = PollStep.failure ("获取结果失败: " ++ errDetail dm em) := by
      rw [hfail]
      simp [classifyCmdResp, h202]
    unfold pollBootScriptResult
    have hres := pollBootAux_fail resp nm ("获取结果失败: " ++ errDetail dm em) j maxA 0
      (fun i hi => by simpa using hpre i hi) hj (by simpa using hcf)
    simpa using hres

/-- Witness for C5: two pending polls followed by a 500 with a response
message. -/
theorem c5_boot_poll_errors_witness :
    pollBootScriptResult
      (fun i => if i < 2 then CmdResp.thrown (some 202) none "pending"
        else CmdResp.thrown (some 500) (some "boom") "x") "s" 5 =
      ⟨BootOutcome.failed ("获取结果失败: " ++ errDetail (some "boom") "x"), 3,
        [("failed", "获取结果失败: " ++ errDetail (some "boom") "x")],
        [(NotifKind.errorNote,
          "脚本 " ++ "s" ++ " 执行失败: " ++ ("获取结果失败: " ++ errDetail (some "boom") "x"))]⟩ := by
  have h := c5_boot_poll_errors
    (fun i => if i < 2 then CmdResp.thrown (some 202) none "pending"
      else CmdResp.thrown (some 500) (some "boom") "x") "s" 5 2
    (some 500) (some "boom") "x" (by decide)
    (fun i hi => by interval_cases i <;> decide) (by decide) (by decide)
  exact h.2

/-- Claim C6: the wizard run that selects plan R (id 7), OS V (id 3),
enters "12", explicitly chooses no SSH key and no boot script, resolves
with status `completed` and the request
`{id 7, os 3, time 12, sshKey NaN, bootScript ""}` — the "use none"
pseudo-options store the sentinels (NaN and the empty string) and advance
the wizard. -/
theorem c6_full_run :
    createInstanceMultiStep cfg6 none = Except.ok st06 ∧
    (runEvents cfg6 st06 evs6).resolved =
      some ⟨RStatus.completed, some plan6, none⟩ := by
  constructor
  · rfl
  · decide

/-- Claim C7: once a run's promise holds a resolution, processing any
further events (late accepts, hides after an accept, hides after an error)
leaves exactly that resolution in place — a run never resolves twice and
never changes its resolved outcome. -/
theorem c7_single_resolution (cfg : Config) (s : WState) (es : List WEvent)
    (r : CreateInstanceResult) (h : s.resolved = some r) :
    (runEvents cfg s es).resolved = some r :=
  runEvents_resolved_some cfg s es r h

/-- Witness for C7: the completed C6 run, then a late hide and a late
accept; the resolution stays the completed one. -/
theorem c7_single_resolution_witness :
    (runEvents cfg6 (runEvents cfg6 st06 evs6)
        [WEvent.hide, WEvent.accept (some (Item.opt "V" (some "3"))) ""]).resolved =
      some ⟨RStatus.completed, some plan6, none⟩ :=
  c7_single_resolution cfg6 (runEvents cfg6 st06 evs6)
    [WEvent.hide, WEvent.accept (some (Item.opt "V" (some "3"))) ""]
    ⟨RStatus.completed, some plan6, none⟩ (by decide)

/-- Claim C8: a wizard run started without the EVO permission returns an
error result naming the missing permission before any step is rendered
(no wizard state is even constructed), and a run started with an empty plan
catalog likewise returns an error naming the missing catalog. -/
theorem c8_guards (cfg : Config) (dp : Option WizPlan) :
    (cfg.hasEvoPermission = false →
      createInstanceMultiStep cfg dp =
        Except.error ⟨RStatus.error, none, some "没有 EVO 权限"⟩)
  ∧ (cfg.hasEvoPermission = true → cfg.planList = [] →
      createInstanceMultiStep cfg dp =
        Except.error ⟨RStatus.error, none, some "没有可用的 Plan"⟩) := by
  constructor
  · intro h
    simp [createInstanceMultiStep, h]
  · intro h1 h2
    simp [createInstanceMultiStep, h1, h2]

/-- Witness for C8 on two concrete configurations. -/
theorem c8_guards_witness :
    createInstanceMultiStep { cfg6 with hasEvoPermission := false } none =
      Except.error ⟨RStatus.error, none, some "没有 EVO 权限"⟩ ∧
    createInstanceMultiStep { cfg6 with planList := [] } none =
      Except.error ⟨RStatus.error, none, some "没有可用的 Plan"⟩ := by
  refine ⟨(c8_guards { cfg6 with hasEvoPermission := false } none).1 (by decide), ?_⟩
  exact (c8_guards { cfg6 with planList := [] } none).2 (by decide) (by decide)

/-- Claim C9: on a 200 response whose payload has status "complete" and
whose available memory converts (KB → GB, two decimals) to exactly "0.00",
`getInstanceState` returns the state rewritten to "stopped" regardless of
the reported power state, with all memory fields replaced by the converted
strings and the traffic fields by rounded gigabyte values; consequently an
instance-state polling loop whose fetches all satisfy this observes only
the rewritten "stopped" value and never matches "running". -/
theorem c9_memzero_stopped (r : StateResp) (info : InstanceStateOut)
    (hr : r = StateResp.ok 200 (some info))
    (hc : info.status = "complete")
    (hz : formatMemory info.state.memory.memavailable = "0.00") :
    getInstanceState r = some
      ⟨info.status,
        ⟨"stopped", info.state.cpu,
          ⟨formatMemory info.state.memory.memtotal,
            formatMemory info.state.memory.memfree,
            formatMemory info.state.memory.memavailable⟩,
          ⟨bytesToGB info.state.traffic.tIn.num, bytesToGB info.state.traffic.tOut.num,
            bytesToGB info.state.traffic.tTotal.num⟩⟩⟩
  ∧ (∀ (raws : ℕ → StateResp) (maxA : ℕ),
      (∀ i, ∃ inf : InstanceStateOut, raws i = StateResp.ok 200 (some inf) ∧
        inf.status = "complete" ∧ formatMemory inf.state.memory.memavailable = "0.00") →
      (createInstancePoll
        (fun i => (getInstanceState (raws i)).map (fun o => o.state.state))
        "running" maxA).1 = maxA + 1) := by
  constructor
  · subst hr
    simp only [getInstanceState, hc, hz]
    simp
  · intro raws maxA hall
    apply createInstancePoll_never
    intro i
    rcases hall i with ⟨inf, hri, hst, hmz⟩
    rw [hri]
    simp only [getInstanceState, hst, hmz]
    simp

/-- Witness for C9: the rewritten state and a 1-attempt loop observing it. -/
theorem c9_memzero_stopped_witness :
    getInstanceState (StateResp.ok 200 (some infoW)) = some
      ⟨infoW.status,
        ⟨"stopped", infoW.state.cpu,
          ⟨formatMemory infoW.state.memory.memtotal,
            formatMemory infoW.state.memory.memfree,
            formatMemory infoW.state.memory.memavailable⟩,
          ⟨bytesToGB infoW.state.traffic.tIn.num, bytesToGB infoW.state.traffic.tOut.num,
            bytesToGB infoW.state.traffic.tTotal.num⟩⟩⟩ ∧
    (createInstancePoll
      (fun i => (getInstanceState (StateResp.ok 200 (some infoW))).map
        (fun o => o.state.state)) "running" 1).1 = 2 := by
  have h := c9_memzero_stopped (StateResp.ok 200 (some infoW)) infoW rfl rfl (by decide)
  exact ⟨h.1, h.2 (fun _ => StateResp.ok 200 (some infoW)) 1
    (fun i => ⟨infoW, rfl, rfl, by decide⟩)⟩

/-- Claim C10 (code bug): the emptiness precondition is real — with an
empty stored list the function crashes on the unconditional
`instanceList[0].expiration_at` read (modelled `none`) before any check —
but the claimed clearing never happens: because the refresh is started
without `await`, the `CONFIG.instanceList.length > 0` re-check still reads
the entry list, which is non-empty under the precondition, so the function
returns early; even once the un-awaited refresh lands an empty list, the
status-bar timer, the stored instance state and the reminder flag are left
as they were and no expiration error notification is shown. -/
theorem c10_expiration_check :
    checkInstanceExpirationSync { storeExpired with instanceList := [] } 2000 = none
  ∧ checkInstanceExpirationEventual storeExpired 2000 [] =
      some ({ storeExpired with instanceList := [] }, [])
  ∧ ({ storeExpired with instanceList := [] } : Store).updateStatusBarInterval = true
  ∧ ({ storeExpired with instanceList := [] } : Store).instanceState ≠ none := by
  refine ⟨rfl, by decide, rfl, by decide⟩

end Alice
